import Mathlib

/-
Shallow embedding of the AlertBot repository, a Telegram job-posting
reply bot.  The embedded code comes from:
  src/message_processor.py  (keyword classification, contact extraction,
                             response generation, delivery, dedup set)
  src/session_handler.py    (proxy descriptor and client construction)
  src/config_validator.py   (channel-list validation)
External effects (Telegram network calls, the Gemini completion call, the
filesystem probe for the resume file, the event-loop clock) are modelled
as oracle inputs bundled in a `World` value, one per event/callback; the
mutable processor state (`processed_messages`, `last_message_time`) is a
`ProcState` threaded explicitly.  Python strings are modelled as Lean
`String` (a list of unicode scalar values, matching Python's sequence of
code points for the texts considered here); helper functions` semantics
are restricted to ASCII where Python's are unicode-aware (noted locally).
-/

namespace AlertBot

/-- Python `str.lower()` restricted to ASCII case mapping.  The Persian
characters appearing in the embedded literals have no case, so for the
strings of this program the restriction is exact. -/
def pyLower (s : String) : String := ⟨s.data.map Char.toLower⟩

/-- ASCII whitespace stripped by Python `str.strip()` (the model omits the
rarer unicode space code points). -/
def isPySpace (c : Char) : Bool :=
  c == ' ' || c == '\t' || c == '\n' || c == '\r' || c == '\x0b' || c == '\x0c'

/-- Python `str.strip()`: drop leading and trailing whitespace. -/
def pyStrip (s : String) : String :=
  ⟨((s.data.dropWhile isPySpace).reverse.dropWhile isPySpace).reverse⟩

/-- Decides whether `needle` occurs at the start of `hay`. -/
def listStartsWith : List Char → List Char → Bool
  | [], _ => true
  | _ :: _, [] => false
  | a :: as, b :: bs => a == b && listStartsWith as bs

/-- Python substring containment `needle in hay` over code-point lists. -/
def listContainsSeq (needle : List Char) : List Char → Bool
  | [] => listStartsWith needle []
  | b :: bs => listStartsWith needle (b :: bs) || listContainsSeq needle bs

/-- `MessageProcessor.UI_KEYWORDS` (src/message_processor.py lines 16-23),
verbatim. -/
def UI_KEYWORDS : List String :=
  ["UI", "UX", "interface", "figma", "sketch", "adobe xd",
   "فرانت", "طراحی رابط", "رابط کاربری", "تجربه کاربری",
   "ui designer", "ux designer", "فیگما", "طراح رابط",
   "front-end", "frontend", "وب دیزاین", "web design",
   "mobile design", "app design", "طراحی اپلیکیشن",
   "wireframe", "prototype", "mockup", "طراحی موکاپ"]

/-- `MessageProcessor.contains_ui_keywords` (lines 43-46): case-insensitive
substring test of every keyword against the text. -/
def contains_ui_keywords (text : String) : Bool :=
  let text_lower := pyLower text
  UI_KEYWORDS.any fun keyword => listContainsSeq (pyLower keyword).data text_lower.data

/-- The character class `[a-zA-Z0-9_]` of the username regular expression. -/
def isWordChar (c : Char) : Bool := c.isAlpha || c.isDigit || c == '_'

/-- Leftmost search for the pattern `@([a-zA-Z0-9_]+)`: scan for the first
`@` that is immediately followed by at least one word character, and return
the maximal word-character run after it (the capture group, without `@`).
This is the exact semantics of `re.search` for that pattern. -/
def scanUsername : List Char → Option (List Char)
  | [] => none
  | a :: rest =>
    if a = '@' then
      match rest with
      | [] => none
      | d :: ds =>
        if isWordChar d then some ((d :: ds).takeWhile isWordChar)
        else scanUsername (d :: ds)
    else scanUsername rest

/-- `MessageProcessor.extract_username` (lines 48-54). -/
def extract_username (text : String) : Option String :=
  (scanUsername text.data).map fun l => ⟨l⟩

/-- Exactly `n` ASCII digits taken from the front of the list (the `\d{9}`
part of the phone pattern; Python `\d` also accepts unicode digits, the
model keeps ASCII). -/
def takeDigits : ℕ → List Char → Option (List Char)
  | 0, _ => some []
  | _ + 1, [] => none
  | n + 1, c :: rest =>
    if c.isDigit then (takeDigits n rest).map (fun ds => c :: ds) else none

/-- The mandatory `9\d{9}` tail of the phone pattern at the current point. -/
def phoneBody : List Char → Option (List Char)
  | [] => none
  | c :: rest =>
    if c = '9' then (takeDigits 9 rest).map (fun ds => c :: ds) else none

/-- One anchored attempt of `(\+98|0)?9\d{9}`: the alternation tries
`+98`, then `0`, then the empty option; since the three alternatives start
with distinct characters the attempt is deterministic. -/
def phoneMatchAt (cs : List Char) : Option (List Char) :=
  match cs with
  | '+' :: '9' :: '8' :: rest =>
    (phoneBody rest).map (fun b => '+' :: '9' :: '8' :: b)
  | '0' :: rest => (phoneBody rest).map (fun b => '0' :: b)
  | _ => phoneBody cs

/-- Leftmost `re.search` of the Iranian phone pattern (line 66). -/
def searchPhone : List Char → Option String
  | [] => none
  | c :: rest =>
    match phoneMatchAt (c :: rest) with
    | some m => some ⟨m⟩
    | none => searchPhone rest

/-- Character class `[A-Za-z0-9._%+-]` (email local part). -/
def isLocalChar (c : Char) : Bool :=
  c.isAlphanum || c == '.' || c == '_' || c == '%' || c == '+' || c == '-'

/-- Character class `[A-Za-z0-9.-]` (email domain). -/
def isDomainChar (c : Char) : Bool := c.isAlphanum || c == '.' || c == '-'

/-- Character class `[A-Z|a-z]` (email top-level part; the class literally
contains the bar character). -/
def isTldChar (c : Char) : Bool := c.isAlpha || c == '|'

/-- Word characters of Python `\b` (ASCII restriction of `\w`). -/
def isReWordChar (c : Char) : Bool := c.isAlphanum || c == '_'

/-- A `\b` boundary holds between two (possibly absent) neighbouring
characters when exactly one of them is a word character. -/
def atBoundary (a b : Option Char) : Bool :=
  (a.any isReWordChar) != (b.any isReWordChar)

/-- Backtracking of the greedy `[A-Z|a-z]{2,}` followed by `\b`: try the
longest candidate length first, going down to 2, and keep the first length
whose following position is a word boundary. -/
def tldFit (streamAfterDot : List Char) : ℕ → Option ℕ
  | 0 => none
  | 1 => none
  | t + 2 =>
    if atBoundary streamAfterDot[t + 1]? streamAfterDot[t + 2]? then some (t + 2)
    else tldFit streamAfterDot (t + 1)

/-- Backtracking of the greedy `[A-Za-z0-9.-]+` followed by `\.`: try the
longest domain consumption first; at consumption `d` the next character
(index `d` of `ds`) must be a dot, after which the top-level part and its
end boundary must fit.  Returns the consumption and top-level length. -/
def domainTry (ds : List Char) : ℕ → Option (ℕ × ℕ)
  | 0 => none
  | d + 1 =>
    match ds[d + 1]? with
    | some c =>
      if c = '.' then
        let after := ds.drop (d + 2)
        match tldFit after (after.takeWhile isTldChar).length with
        | some t => some (d + 1, t)
        | none => domainTry ds d
      else domainTry ds d
    | none => domainTry ds d

/-- One anchored attempt of the email pattern
`\b[A-Za-z0-9._%+-]+@[A-Za-z0-9.-]+\.[A-Z|a-z]{2,}\b` (line 71), with
`prev` the character just before the attempt position. -/
def emailMatchAt (prev : Option Char) (cs : List Char) : Option (List Char) :=
  let lcs := cs.takeWhile isLocalChar
  if lcs.isEmpty then none
  else if !(atBoundary prev cs.head?) then none
  else
    match cs.drop lcs.length with
    | '@' :: ds =>
      let dcs := ds.takeWhile isDomainChar
      if dcs.isEmpty then none
      else
        match domainTry ds dcs.length with
        | some (d, t) =>
          some (lcs ++ '@' :: (ds.take d) ++ '.' :: ((ds.drop (d + 1)).take t))
        | none => none
    | _ => none

/-- Leftmost `re.search` of the email pattern, threading the previous
character for the leading `\b`. -/
def searchEmail (prev : Option Char) : List Char → Option String
  | [] => none
  | c :: rest =>
    match emailMatchAt prev (c :: rest) with
    | some m => some ⟨m⟩
    | none => searchEmail (some c) rest

/-- The record built by `MessageProcessor.extract_contact_info`
(lines 56-75); absent keys are `none`. -/
structure ContactInfo where
  username : Option String
  phone : Option String
  email : Option String
deriving DecidableEq

/-- `MessageProcessor.extract_contact_info` (lines 56-75): three
independent best-effort extractions. -/
def extract_contact_info (text : String) : ContactInfo :=
  { username := extract_username text
    phone := searchPhone text.data
    email := searchEmail none text.data }

/-- `MessageProcessor._get_fallback_message` (lines 105-114), verbatim. -/
def fallback_message : String :=
  "🎨 سلام و وقت بخیر\n\nبا توجه به آگهی شما در زمینه طراحی UI/UX، تمایل دارم در این پروژه همکاری کنم. \nچندین سال تجربه در طراحی رابط کاربری و تجربه کاربری دارم.\n\nدر ادامه نمونه کارها و رزومه خود را ارسال می‌کنم.\n\nبا تشکر 🙏"

/-- Exceptions distinguished by the delivery code: the Telethon
`FloodWaitError` (carrying its advertised wait in seconds) versus any
other exception. -/
inductive Exc where
  | floodWait (seconds : ℕ)
  | other
deriving DecidableEq

/-- Outcome of `client.get_entity(username)`: success, the two exception
kinds caught by the inner handler (lines 128-135), or an exception that
propagates to the outer handler. -/
inductive EntityResult where
  | ok
  | valueError
  | privacyRestricted
  | raised (e : Exc)
deriving DecidableEq

/-- Outcome of a Telethon send call (`send_message` / `send_file`). -/
inductive SendCall where
  | ok
  | raised (e : Exc)
deriving DecidableEq

/-- Result of `send_response_to_user` as seen by its caller: a boolean
return, or a re-raised `FloodWaitError`. -/
inductive SendResult where
  | ret (b : Bool)
  | flood (seconds : ℕ)
deriving DecidableEq

/-- Observable steps of one `process_message` invocation.  A send action is
recorded exactly when the corresponding Telethon call succeeds (a message
was delivered). -/
inductive Action where
  | keywordCheck
  | extractContact
  | generate
  | sendText (user : String)
  | sendFile (user : String)
  | sendLink (user : String)
deriving DecidableEq

/-- Oracle inputs for one event callback: the state of the configured AI
model, the outcomes the external services would give to each call, the
filesystem probe for the resume file, the configured portfolio URL and the
event-loop clock reading (an integer number of seconds; only differences
against the 30-second cooldown matter to the embedded code). -/
structure World where
  modelAvailable : Bool
  genResult : Option String
  getEntity : EntityResult
  sendMessage : SendCall
  resumeExists : Bool
  sendFile : SendCall
  fallbackSend : SendCall
  portfolioUrl : String
  currentTime : ℤ
deriving DecidableEq

/-- The mutable state of `MessageProcessor`: the dedup set
`processed_messages` and the dict `last_message_time`.  The Python `set`
of message ids is modelled through its CPython iteration order: for a set
of distinct non-negative small integers all below the hash-table size,
each key hashes to itself and occupies its own slot, so iteration (and
hence `list(...)`) enumerates the elements in ascending numeric order.
The set is therefore represented as its strictly ascending element list,
with `add` as ordered insertion. -/
structure ProcState where
  processedMessages : List ℕ
  lastMessageTime : List (String × ℤ)
deriving DecidableEq

/-- An incoming event: `event.message.id` and `event.message.message`. -/
structure Event where
  id : ℕ
  text : String
deriving DecidableEq

/-- Python `dict.get(k, 0)` on the rate-limit table. -/
def dictGet (d : List (String × ℤ)) (k : String) : ℤ :=
  (d.lookup k).getD 0

/-- Python `d[k] = v` on the rate-limit table (replace any old binding). -/
def dictSet (d : List (String × ℤ)) (k : String) (v : ℤ) : List (String × ℤ) :=
  (k, v) :: d.filter (fun p => p.1 != k)

/-- `self.rate_limit_delay = 30` (line 28). -/
def rate_limit_delay : ℤ := 30

/-- `processed_messages.add(id)`: ordered insertion into the ascending
representation of the set (a no-op when the id is already present). -/
def pySetInsert (x : ℕ) : List ℕ → List ℕ
  | [] => [x]
  | y :: ys =>
    if x < y then x :: y :: ys
    else if x = y then y :: ys
    else y :: pySetInsert x ys

/-- `MessageProcessor.generate_custom_message` (lines 77-103): without a
usable model return the fallback; otherwise the completion call either
returns a text (stripped) or raises, in which case the fallback is
returned.  The oracle `w.genResult` stands for the outcome of
`model.generate_content_async(prompt)` (the prompt embeds `job_text`). -/
def generate_custom_message (w : World) (job_text : String) : String :=
  if w.modelAvailable = false then fallback_message
  else
    match w.genResult with
    | some t => pyStrip t
    | none => fallback_message

/-- `MessageProcessor._send_resume_file` (lines 155-189).  The probe over
the four candidate paths is collapsed into the oracle `w.resumeExists`
(whether any candidate path exists).  A failure of `send_file` — of any
kind, `FloodWaitError` included — is caught locally and the portfolio link
is sent as plain text instead; an exception of that fallback `send_message`
(or of the no-resume link send) propagates to the caller. -/
def send_resume_file (w : World) (username : String) : Except Exc (List Action) :=
  if w.resumeExists then
    match w.sendFile with
    | SendCall.ok => Except.ok [Action.sendFile username]
    | SendCall.raised _ =>
      if w.portfolioUrl != "" then
        match w.fallbackSend with
        | SendCall.ok => Except.ok [Action.sendLink username]
        | SendCall.raised e => Except.error e
      else Except.ok []
  else
    if w.portfolioUrl != "" then
      match w.fallbackSend with
      | SendCall.ok => Except.ok [Action.sendLink username]
      | SendCall.raised e => Except.error e
    else Except.ok []

/-- `MessageProcessor.send_response_to_user` (lines 116-153): rate-limit
check, entity resolution (with `ValueError` and
`UserPrivacyRestrictedError` handled locally), the text send, the resume
step, then the rate-limit timestamp update followed by `return True`.  The
outer handlers re-raise a `FloodWaitError` and turn any other exception
into `return False`. -/
def send_response_to_user (st : ProcState) (w : World) (username message : String) :
    ProcState × SendResult × List Action :=
  let current_time := w.currentTime
  let last_time := dictGet st.lastMessageTime username
  if current_time - last_time < rate_limit_delay then
    (st, SendResult.ret false, [])
  else
    match w.getEntity with
    | EntityResult.valueError => (st, SendResult.ret false, [])
    | EntityResult.privacyRestricted => (st, SendResult.ret false, [])
    | EntityResult.raised (Exc.floodWait s) => (st, SendResult.flood s, [])
    | EntityResult.raised Exc.other => (st, SendResult.ret false, [])
    | EntityResult.ok =>
      match w.sendMessage with
      | SendCall.raised (Exc.floodWait s) => (st, SendResult.flood s, [])
      | SendCall.raised Exc.other => (st, SendResult.ret false, [])
      | SendCall.ok =>
        match send_resume_file w username with
        | Except.error (Exc.floodWait s) =>
          (st, SendResult.flood s, [Action.sendText username])
        | Except.error Exc.other =>
          (st, SendResult.ret false, [Action.sendText username])
        | Except.ok resumeActs =>
          ({ st with lastMessageTime := dictSet st.lastMessageTime username current_time },
           SendResult.ret true, Action.sendText username :: resumeActs)

/-- Characterization (for the amended rate-limit-error claim) of the first
exception that escapes into the outer handlers of `send_response_to_user`;
`none` when the body completes with a boolean return.  Exceptions of the
resume-file `send_file` call never appear here, because they are caught
inside `_send_resume_file`. -/
def firstEscapingExc (st : ProcState) (w : World) (username : String) : Option Exc :=
  if w.currentTime - dictGet st.lastMessageTime username < rate_limit_delay then none
  else
    match w.getEntity with
    | EntityResult.valueError => none
    | EntityResult.privacyRestricted => none
    | EntityResult.raised e => some e
    | EntityResult.ok =>
      match w.sendMessage with
      | SendCall.raised e => some e
      | SendCall.ok =>
        match send_resume_file w username with
        | Except.error e => some e
        | Except.ok _ => none

/-- The truncation `set(list(self.processed_messages)[-500:])` (line 237):
`list(...)` enumerates the set in its iteration order — the ascending
representation order of `ProcState` — and `[-500:]` keeps the last 500
entries of that enumeration. -/
def truncateSeen (s : List ℕ) : List ℕ := s.drop (s.length - 500)

/-- `MessageProcessor.process_message` (lines 191-240): dedup check, the
empty/short-text guard, keyword classification, contact extraction,
response generation and delivery; on a successful delivery the message id
is recorded and the dedup set is truncated past the high-water mark.  A
`FloodWaitError` re-raised by `send_response_to_user` is caught by this
function's own `except Exception` handler (line 239), so it records
nothing.  The returned action list is the observable trace of the
invocation. -/
def process_message (st : ProcState) (w : World) (ev : Event) : ProcState × List Action :=
  if ev.id ∈ st.processedMessages then (st, [])
  else if ev.text = "" ∨ (pyStrip ev.text).length < 10 then (st, [])
  else if contains_ui_keywords ev.text = false then (st, [Action.keywordCheck])
  else
    match (extract_contact_info ev.text).username with
    | none => (st, [Action.keywordCheck, Action.extractContact])
    | some username =>
      let custom_message := generate_custom_message w ev.text
      let r := send_response_to_user st w username custom_message
      let acts := Action.keywordCheck :: Action.extractContact :: Action.generate :: r.2.2
      match r.2.1 with
      | SendResult.ret true =>
        let s1 := pySetInsert ev.id r.1.processedMessages
        let s2 := if 1000 < s1.length then truncateSeen s1 else s1
        ({ r.1 with processedMessages := s2 }, acts)
      | _ => (r.1, acts)

/-- Variant tag of the transport descriptor returned by
`SessionHandler._get_proxy_config`: the tuples
`('socks5', server, port, True, None, None)`,
`('http', server, port, True, None, None)` and
`(server, port, secret_bytes)`; the constant `rdns`/auth fields of the
first two are omitted. -/
inductive ProxyConfig where
  | socks5 (server : String) (port : ℤ)
  | http (server : String) (port : ℤ)
  | mtproto (server : String) (port : ℤ) (secret : List ℕ)
deriving DecidableEq

/-- The configuration keys read by `SessionHandler` (a slice of the dict
built by `ConfigValidator.validate_config`; optional keys may be absent). -/
structure BotConfig where
  api_id : ℤ
  api_hash : String
  proxy_type : Option String
  proxy_server : Option String
  proxy_port : Option ℤ
  proxy_secret : Option String
deriving DecidableEq

/-- Value of one hexadecimal digit. -/
def hexVal (c : Char) : ℕ :=
  if c.isDigit then c.toNat - '0'.toNat
  else if decide ('a' ≤ c) && decide (c ≤ 'f') then c.toNat - 'a'.toNat + 10
  else c.toNat - 'A'.toNat + 10

/-- Hexadecimal digit test. -/
def isHexDigitChar (c : Char) : Bool :=
  c.isDigit || (decide ('a' ≤ c) && decide (c ≤ 'f')) || (decide ('A' ≤ c) && decide (c ≤ 'F'))

/-- Python `bytes.fromhex`, returning `none` on a `ValueError`: pairs of
hexadecimal digits, with spaces allowed between pairs (not inside one). -/
def bytesFromHex (s : String) : Option (List ℕ) :=
  bytesFromHexCore s.data
where
  bytesFromHexCore : List Char → Option (List ℕ)
  | [] => some []
  | ' ' :: rest => bytesFromHexCore rest
  | c1 :: c2 :: rest =>
    if isHexDigitChar c1 && isHexDigitChar c2 then
      (bytesFromHexCore rest).map (fun bs => (16 * hexVal c1 + hexVal c2) :: bs)
    else none
  | [_] => none

/-- Truthiness of the optional string settings (`None` and `""` are
falsy). -/
def optStrTruthy : Option String → Bool
  | none => false
  | some s => s != ""

/-- Truthiness of the optional integer port setting (`None` and `0` are
falsy). -/
def optIntTruthy : Option ℤ → Bool
  | none => false
  | some n => n != 0

/-- `SessionHandler._get_proxy_config` (src/session_handler.py lines
38-80): `None` unless type, server and port are all truthy; dispatch on
the lowercased type; for `mtproto`, a missing secret or a secret rejected
by `bytes.fromhex` degrades to `None` (with an error logged). -/
def get_proxy_config (cfg : BotConfig) : Option ProxyConfig :=
  if !(optStrTruthy cfg.proxy_type && optStrTruthy cfg.proxy_server
        && optIntTruthy cfg.proxy_port) then none
  else
    match cfg.proxy_type, cfg.proxy_server, cfg.proxy_port with
    | some pt, some server, some port =>
      let ptl := pyLower pt
      if ptl = "socks5" then some (ProxyConfig.socks5 server port)
      else if ptl = "http" then some (ProxyConfig.http server port)
      else if ptl = "mtproto" then
        match cfg.proxy_secret with
        | none => none
        | some sec =>
          if sec = "" then none
          else
            match bytesFromHex sec with
            | none => none
            | some bs => some (ProxyConfig.mtproto server port bs)
      else none
    | _, _, _ => none

/-- The constructor arguments of the `TelegramClient` built by
`SessionHandler.create_client` (lines 16-36): session name, credentials
and the optional proxy descriptor. -/
structure ClientSpec where
  session_name : String
  api_id : ℤ
  api_hash : String
  proxy : Option ProxyConfig
deriving DecidableEq

/-- `SessionHandler.create_client` (lines 16-36): both branches build the
same client, with the proxy keyword present exactly when
`_get_proxy_config` returned a descriptor. -/
def create_client (cfg : BotConfig) : ClientSpec :=
  { session_name := "telegram_ui_bot_session"
    api_id := cfg.api_id
    api_hash := cfg.api_hash
    proxy := get_proxy_config cfg }

/-- Python `str.split(sep)` for a one-character separator, keeping empty
pieces (`''.split(',') == ['']`). -/
def pySplit (s : String) (sep : Char) : List String :=
  (pySplitCore s.data []).map fun l => ⟨l⟩
where
  pySplitCore : List Char → List Char → List (List Char)
  | [], acc => [acc.reverse]
  | c :: rest, acc =>
    if c = sep then acc.reverse :: pySplitCore rest []
    else pySplitCore rest (c :: acc)

/-- The channel-list processing of `ConfigValidator.validate_config`
(src/config_validator.py lines 45-47):
`[ch.strip() for ch in config['channels'].split(',') if ch.strip()]`. -/
def process_channels (s : String) : List String :=
  ((pySplit s ',').filter fun ch => pyStrip ch != "").map pyStrip

/-- The channel-list validation step (lines 45-50): the processed list, or
the `ValueError` raised when it is empty. -/
def validate_channels (s : String) : Except String (List String) :=
  let channels := process_channels s
  if channels = [] then
    Except.error "No valid channels found in CHANNELS environment variable"
  else Except.ok channels

/-
Concrete oracle values used by the witness theorems.
-/

/-- A world where every external call succeeds, no resume file is found and
no portfolio URL is configured, at clock 100. -/
def wA : World :=
  { modelAvailable := false, genResult := none, getEntity := EntityResult.ok
    sendMessage := SendCall.ok, resumeExists := false, sendFile := SendCall.ok
    fallbackSend := SendCall.ok, portfolioUrl := "", currentTime := 100 }

/-- The world `wA` ten seconds later. -/
def wB : World := { wA with currentTime := 110 }

/-- A sample relevant job-posting text containing a handle. -/
def jobText : String := "Looking for a UI/UX designer, contact @jane_doe"

/-
Shared helper lemmas about the embedded operations.
-/

/-- Replacing a binding and reading it back gives the written value. -/
theorem dictGet_dictSet (d : List (String × ℤ)) (k : String) (v : ℤ) :
    dictGet (dictSet d k v) k = v := by
  simp [dictGet, dictSet, List.lookup]

/-- `send_response_to_user` never touches the dedup set. -/
theorem send_response_processedMessages (st : ProcState) (w : World) (u m : String) :
    (send_response_to_user st w u m).1.processedMessages = st.processedMessages := by
  simp only [send_response_to_user]
  repeat' split
  all_goals rfl

/-- When `send_response_to_user` returns `True`, the resulting state is the
input state with the rate-limit timestamp for the recipient set to the
current clock reading. -/
theorem send_response_success_state (st : ProcState) (w : World) (u m : String)
    (h : (send_response_to_user st w u m).2.1 = SendResult.ret true) :
    (send_response_to_user st w u m).1 =
      { st with lastMessageTime := dictSet st.lastMessageTime u w.currentTime } := by
  unfold send_response_to_user at h ⊢
  by_cases hrl : w.currentTime - dictGet st.lastMessageTime u < rate_limit_delay
  · simp [hrl] at h
  · cases hge : w.getEntity with
    | raised e => cases e <;> simp [hrl, hge] at h
    | valueError => simp [hrl, hge] at h
    | privacyRestricted => simp [hrl, hge] at h
    | ok =>
      cases hsm : w.sendMessage with
      | raised e => cases e <;> simp [hrl, hge, hsm] at h
      | ok =>
        cases hsr : send_resume_file w u with
        | error e => cases e <;> simp [hrl, hge, hsm, hsr] at h
        | ok acts => simp [hrl, hge, hsm, hsr]

/-- A message id already in the dedup set short-circuits
`process_message`: no action of any kind and no state change. -/
theorem process_message_of_mem (st : ProcState) (w : World) (ev : Event)
    (h : ev.id ∈ st.processedMessages) : process_message st w ev = (st, []) := by
  unfold process_message
  rw [if_pos h]

/-- C1.  Once a run of `process_message` has left the event's message id
recorded in the dedup set (which happens exactly when a reply was sent
successfully), a second `process_message` invocation carrying the same
message id is recognized as already processed: it performs no keyword
classification, no contact extraction, no generation and no send (empty
action trace), and leaves the state unchanged, so the two invocations
produce at most one outbound reply in total. -/
theorem c1_duplicate_id_second_processing_noop (st : ProcState) (w1 w2 : World) (ev : Event)
    (hrec : ev.id ∈ (process_message st w1 ev).1.processedMessages) :
    process_message (process_message st w1 ev).1 w2 ev =
      ((process_message st w1 ev).1, []) :=
  process_message_of_mem _ w2 ev hrec

/-- Witness for C1: a successfully processed relevant message records id 1,
and reprocessing the same event is a no-op. -/
theorem c1_witness :
    (⟨1, jobText⟩ : Event).id ∈
      (process_message ⟨∅, []⟩ wA ⟨1, jobText⟩).1.processedMessages ∧
    process_message (process_message ⟨∅, []⟩ wA ⟨1, jobText⟩).1 wB ⟨1, jobText⟩ =
      ((process_message ⟨∅, []⟩ wA ⟨1, jobText⟩).1, []) :=
  ⟨by decide, c1_duplicate_id_second_processing_noop ⟨∅, []⟩ wA wB ⟨1, jobText⟩ (by decide)⟩

/-- C2.  If `send_response_to_user` successfully delivers to a handle at
clock `t = w1.currentTime`, then a further call for the same handle at a
clock `t'` with `t' - t` below the 30-second cooldown sends nothing: it is
skipped, returns `False` and changes no state, so two eligible sends to
the same handle inside the cooldown window deliver exactly one message. -/
theorem c2_cooldown_second_send_skipped (st : ProcState) (w1 w2 : World) (u m1 m2 : String)
    (hsucc : (send_response_to_user st w1 u m1).2.1 = SendResult.ret true)
    (hwin : w2.currentTime - w1.currentTime < rate_limit_delay) :
    send_response_to_user (send_response_to_user st w1 u m1).1 w2 u m2 =
      ((send_response_to_user st w1 u m1).1, SendResult.ret false, []) := by
  have hstate := send_response_success_state st w1 u m1 hsucc
  rw [hstate]
  unfold send_response_to_user
  rw [if_pos]
  show w2.currentTime - dictGet (dictSet st.lastMessageTime u w1.currentTime) u < rate_limit_delay
  rw [dictGet_dictSet]
  exact hwin

/-- Witness for C2: a send at clock 100 delivers, and the retry at clock
110 (10 seconds later, inside the 30-second cooldown) is skipped. -/
theorem c2_witness :
    (send_response_to_user ⟨∅, []⟩ wA "jane_doe" "hello").2.1 = SendResult.ret true ∧
    wB.currentTime - wA.currentTime < rate_limit_delay ∧
    send_response_to_user (send_response_to_user ⟨∅, []⟩ wA "jane_doe" "hello").1 wB "jane_doe" "hello" =
      ((send_response_to_user ⟨∅, []⟩ wA "jane_doe" "hello").1, SendResult.ret false, []) :=
  ⟨by decide, by decide,
    c2_cooldown_second_send_skipped ⟨∅, []⟩ wA wB "jane_doe" "hello" "hello"
      (by decide) (by decide)⟩

/-- C10.  An event whose text is empty or whose stripped length is below
10 is skipped before classification: no keyword check, no contact
extraction, no generation, no send, and no state change. -/
theorem c10_short_text_skipped (st : ProcState) (w : World) (ev : Event)
    (h : ev.text = "" ∨ (pyStrip ev.text).length < 10) :
    process_message st w ev = (st, []) := by
  unfold process_message
  by_cases hm : ev.id ∈ st.processedMessages
  · rw [if_pos hm]
  · rw [if_neg hm, if_pos h]

/-- Witness for C10: a 4-character (after stripping) text is skipped with
no trace and no state change. -/
theorem c10_witness :
    ((("   tiny " : String) = "" ∨ (pyStrip "   tiny ").length < 10)) ∧
    process_message ⟨∅, []⟩ wA ⟨42, "   tiny "⟩ = (⟨∅, []⟩, []) :=
  ⟨by decide, c10_short_text_skipped ⟨∅, []⟩ wA ⟨42, "   tiny "⟩ (by decide)⟩

/-- Oracle where the text send succeeds but the resume attachment and the
portfolio-link fallback both raise generic errors. -/
def wC3 : World :=
  { wA with
    resumeExists := true
    sendFile := SendCall.raised Exc.other
    fallbackSend := SendCall.raised Exc.other
    portfolioUrl := "http://example.com" }

/-- Oracle where the resume attachment send raises a flood wait while the
fallback link send succeeds. -/
def wC4 : World :=
  { wA with
    resumeExists := true
    sendFile := SendCall.raised (Exc.floodWait 60)
    portfolioUrl := "http://example.com" }

/-- Oracle where the text-message send raises a flood wait. -/
def wC4b : World := { wA with sendMessage := SendCall.raised (Exc.floodWait 7) }

/-- C3 counterexample: the text message is delivered (`sendText` is in the
trace) and the resume step takes its attachment-failed-with-link-fallback
path, yet no timestamp is recorded for the recipient — the rate-limit
table stays empty — because the fallback link send itself raised, so the
claim that the time is recorded whenever the text send succeeds,
regardless of the resume-step outcome, is false on this input. -/
theorem c3_counterexample :
    Action.sendText "alice" ∈ (send_response_to_user ⟨[], []⟩ wC3 "alice" "hi").2.2 ∧
    (send_response_to_user ⟨[], []⟩ wC3 "alice" "hi").1.lastMessageTime = [] := by
  decide

/-- C3 (amended).  After the text message is sent successfully, the
current time is recorded against the recipient handle provided the resume
step completes without raising (attachment sent, attachment failure
followed by a successful link fallback, or no resume file found); when the
resume step raises — which can only come from the fallback/plain link
send — the timestamp is not recorded even though the text was delivered;
and it is never recorded when the text send did not succeed. -/
theorem c3_timestamp_recording (st : ProcState) (w : World) (u m : String) :
    (Action.sendText u ∈ (send_response_to_user st w u m).2.2 ∧
        (∃ acts, send_resume_file w u = Except.ok acts) →
      (send_response_to_user st w u m).1.lastMessageTime =
        dictSet st.lastMessageTime u w.currentTime) ∧
    (Action.sendText u ∉ (send_response_to_user st w u m).2.2 →
      (send_response_to_user st w u m).1 = st) ∧
    ((∃ e, send_resume_file w u = Except.error e) →
      (send_response_to_user st w u m).1 = st) := by
  refine ⟨?_, ?_, ?_⟩
  · rintro ⟨hmem, acts, hok⟩
    by_cases hrl : w.currentTime - dictGet st.lastMessageTime u < rate_limit_delay
    · simp [send_response_to_user, hrl] at hmem
    · cases hge : w.getEntity with
      | valueError => simp [send_response_to_user, hrl, hge] at hmem
      | privacyRestricted => simp [send_response_to_user, hrl, hge] at hmem
      | raised e => cases e <;> simp [send_response_to_user, hrl, hge] at hmem
      | ok =>
        cases hsm : w.sendMessage with
        | raised e => cases e <;> simp [send_response_to_user, hrl, hge, hsm] at hmem
        | ok => simp [send_response_to_user, hrl, hge, hsm, hok]
  · intro hmem
    by_cases hrl : w.currentTime - dictGet st.lastMessageTime u < rate_limit_delay
    · simp [send_response_to_user, hrl]
    · cases hge : w.getEntity with
      | valueError => simp [send_response_to_user, hrl, hge]
      | privacyRestricted => simp [send_response_to_user, hrl, hge]
      | raised e => cases e <;> simp [send_response_to_user, hrl, hge]
      | ok =>
        cases hsm : w.sendMessage with
        | raised e => cases e <;> simp [send_response_to_user, hrl, hge, hsm]
        | ok =>
          cases hsr : send_resume_file w u with
          | error e => cases e <;> simp [send_response_to_user, hrl, hge, hsm, hsr] at hmem
          | ok acts => simp [send_response_to_user, hrl, hge, hsm, hsr] at hmem
  · rintro ⟨e, herr⟩
    by_cases hrl : w.currentTime - dictGet st.lastMessageTime u < rate_limit_delay
    · simp [send_response_to_user, hrl]
    · cases hge : w.getEntity with
      | valueError => simp [send_response_to_user, hrl, hge]
      | privacyRestricted => simp [send_response_to_user, hrl, hge]
      | raised e2 => cases e2 <;> simp [send_response_to_user, hrl, hge]
      | ok =>
        cases hsm : w.sendMessage with
        | raised e2 => cases e2 <;> simp [send_response_to_user, hrl, hge, hsm]
        | ok => cases e <;> simp [send_response_to_user, hrl, hge, hsm, herr]

/-- Witness for the amended C3: in a successful full delivery (resume step
completing without an exception) the timestamp is recorded. -/
theorem c3_witness :
    (send_response_to_user ⟨[], []⟩ wA "jane_doe" "hi").1.lastMessageTime =
      dictSet [] "jane_doe" wA.currentTime :=
  (c3_timestamp_recording ⟨[], []⟩ wA "jane_doe" "hi").1 ⟨by decide, [], by rfl⟩

/-- C4 counterexample: a `FloodWaitError` raised by the resume-file send
(`send_file`) is not re-raised to the caller — `_send_resume_file` catches
it, the portfolio link is sent instead and the call returns `True` — so
the claim that a flood wait raised during any send is re-raised unchanged
(and that every other failing send yields `False`) is false on this
input. -/
theorem c4_counterexample :
    wC4.sendFile = SendCall.raised (Exc.floodWait 60) ∧
    (send_response_to_user ⟨[], []⟩ wC4 "alice" "hi").2 =
      (SendResult.ret true, [Action.sendText "alice", Action.sendLink "alice"]) := by
  decide

/-- C4 (amended).  `send_response_to_user` re-raises a flood wait exactly
when one escapes into its outer handler — from `get_entity`, from the
text-message send, or from the portfolio-link send inside the resume step
(a flood wait of the attachment `send_file` call is caught inside
`_send_resume_file` and never escapes) — and whenever the escaping
exception is of any other kind the call returns `False` instead of
propagating it. -/
theorem c4_flood_reraise_characterization (st : ProcState) (w : World) (u m : String) :
    (∀ s, (send_response_to_user st w u m).2.1 = SendResult.flood s ↔
        firstEscapingExc st w u = some (Exc.floodWait s)) ∧
    (firstEscapingExc st w u = some Exc.other →
      (send_response_to_user st w u m).2.1 = SendResult.ret false) := by
  constructor
  · intro s
    by_cases hrl : w.currentTime - dictGet st.lastMessageTime u < rate_limit_delay
    · simp [send_response_to_user, firstEscapingExc, hrl]
    · cases hge : w.getEntity with
      | valueError => simp [send_response_to_user, firstEscapingExc, hrl, hge]
      | privacyRestricted => simp [send_response_to_user, firstEscapingExc, hrl, hge]
      | raised e => cases e <;> simp [send_response_to_user, firstEscapingExc, hrl, hge]
      | ok =>
        cases hsm : w.sendMessage with
        | raised e =>
          cases e <;> simp [send_response_to_user, firstEscapingExc, hrl, hge, hsm]
        | ok =>
          cases hsr : send_resume_file w u with
          | error e =>
            cases e <;> simp [send_response_to_user, firstEscapingExc, hrl, hge, hsm, hsr]
          | ok acts => simp [send_response_to_user, firstEscapingExc, hrl, hge, hsm, hsr]
  · intro h
    by_cases hrl : w.currentTime - dictGet st.lastMessageTime u < rate_limit_delay
    · simp [firstEscapingExc, hrl] at h
    · cases hge : w.getEntity with
      | valueError => simp [firstEscapingExc, hrl, hge] at h
      | privacyRestricted => simp [firstEscapingExc, hrl, hge] at h
      | raised e =>
        cases e with
        | floodWait s => simp [firstEscapingExc, hrl, hge] at h
        | other => simp [send_response_to_user, hrl, hge]
      | ok =>
        cases hsm : w.sendMessage with
        | raised e =>
          cases e with
          | floodWait s => simp [firstEscapingExc, hrl, hge, hsm] at h
          | other => simp [send_response_to_user, hrl, hge, hsm]
        | ok =>
          cases hsr : send_resume_file w u with
          | error e =>
            cases e with
            | floodWait s => simp [firstEscapingExc, hrl, hge, hsm, hsr] at h
            | other => simp [send_response_to_user, hrl, hge, hsm, hsr]
          | ok acts => simp [firstEscapingExc, hrl, hge, hsm, hsr] at h

/-- Witness for the amended C4: a flood wait raised by the text-message
send escapes and is re-raised unchanged with its wait duration. -/
theorem c4_witness :
    (send_response_to_user ⟨[], []⟩ wC4b "alice" "hi").2.1 = SendResult.flood 7 :=
  ((c4_flood_reraise_characterization ⟨[], []⟩ wC4b "alice" "hi").1 7).mpr (by decide)

set_option maxRecDepth 10000 in
/-- C5: evaluation of the code at the failing input.  Start from a dedup
set holding ids {1..1000} (inserted, say, in the order 1000, 999, ..., 1)
and successfully process an event with id 0.  The insertion pushes the set
to 1001 ids, past the high-water mark 1000, and the truncation keeps the
last 500 entries of the set's iteration order — {501..1000} — which are
NOT the 500 most recently added identifiers: even id 0, the most recently
added of all, is dropped.  (The size bound itself holds: the result has
exactly 500 elements.) -/
theorem c5_truncation_not_most_recent :
    (process_message ⟨List.range' 1 1000, []⟩ wA ⟨0, jobText⟩).1.processedMessages =
      List.range' 501 500 ∧
    0 ∉ (process_message ⟨List.range' 1 1000, []⟩ wA ⟨0, jobText⟩).1.processedMessages := by
  constructor <;> decide

/-- C6.  For a configuration whose proxy type is `mtproto` (in any letter
case) and whose configured proxy secret is rejected by `bytes.fromhex`,
`_get_proxy_config` returns the no-proxy descriptor `None` (after logging
an error) instead of raising, and `create_client` then builds the client
without a proxy. -/
theorem c6_mtproto_invalid_hex_no_proxy (cfg : BotConfig) (pt sec : String)
    (hpt : cfg.proxy_type = some pt) (hmt : pyLower pt = "mtproto")
    (hsec : cfg.proxy_secret = some sec) (hbad : bytesFromHex sec = none) :
    get_proxy_config cfg = none ∧ (create_client cfg).proxy = none := by
  have hmain : get_proxy_config cfg = none := by
    have hptne : pt ≠ "" := by
      intro h; rw [h] at hmt; exact absurd hmt (by decide)
    have hsecne : sec ≠ "" := by
      intro h; rw [h] at hbad; exact absurd hbad (by decide)
    cases hs : cfg.proxy_server with
    | none => simp [get_proxy_config, hpt, hs, optStrTruthy]
    | some server =>
      cases hp : cfg.proxy_port with
      | none => simp [get_proxy_config, hpt, hs, hp, optStrTruthy, optIntTruthy]
      | some port =>
        by_cases hsv : server = ""
        · simp [get_proxy_config, hpt, hs, hp, hsv, optStrTruthy]
        · by_cases hpz : port = 0
          · simp [get_proxy_config, hpt, hs, hp, hpz, optStrTruthy, optIntTruthy]
          · simp [get_proxy_config, hpt, hs, hp, optStrTruthy, optIntTruthy,
              hptne, hsv, hpz, hmt, hsec, hsecne, hbad]
  exact ⟨hmain, by simp [create_client, hmain]⟩

/-- Witness for C6: proxy type `MTProto` with secret `"zz"` (not hex)
yields no proxy descriptor and a proxy-less client. -/
theorem c6_witness :
    get_proxy_config ⟨1, "h", some "MTProto", some "proxy.example", some 443, some "zz"⟩ = none ∧
    (create_client ⟨1, "h", some "MTProto", some "proxy.example", some 443, some "zz"⟩).proxy = none :=
  c6_mtproto_invalid_hex_no_proxy _ "MTProto" "zz" rfl (by decide) rfl (by decide)

/-- C8.  `generate_custom_message` returns the fixed fallback template
whenever no usable model is configured or the completion call raises, and
this fallback is deterministic: any two such invocations return the same
string, regardless of the job-post texts. -/
theorem c8_fallback_deterministic (w1 w2 : World) (t1 t2 : String)
    (h1 : w1.modelAvailable = false ∨ w1.genResult = none)
    (h2 : w2.modelAvailable = false ∨ w2.genResult = none) :
    generate_custom_message w1 t1 = fallback_message ∧
    generate_custom_message w2 t2 = generate_custom_message w1 t1 := by
  have key : ∀ (w : World) (t : String), w.modelAvailable = false ∨ w.genResult = none →
      generate_custom_message w t = fallback_message := by
    intro w t h
    unfold generate_custom_message
    by_cases hm : w.modelAvailable = false
    · rw [if_pos hm]
    · rw [if_neg hm]
      rcases h with h | h
      · exact absurd h hm
      · rw [h]
  exact ⟨key w1 t1 h1, by rw [key w1 t1 h1, key w2 t2 h2]⟩

/-- Witness for C8: with no model configured and, separately, with a
failing completion call, both invocations return the fallback template. -/
theorem c8_witness :
    generate_custom_message wA "first job text" = fallback_message ∧
    generate_custom_message { wA with modelAvailable := true } "second job text" =
      generate_custom_message wA "first job text" :=
  c8_fallback_deterministic wA { wA with modelAvailable := true }
    "first job text" "second job text" (Or.inl rfl) (Or.inr rfl)

/-- The head of what `dropWhile` leaves never satisfies the predicate. -/
theorem dropWhile_head_false {α : Type} (p : α → Bool) (l : List α) :
    ∀ a ∈ (l.dropWhile p).head?, p a = false := by
  induction l with
  | nil => simp
  | cons b bs ih =>
    rw [List.dropWhile_cons]
    split
    · exact ih
    · next h =>
      intro a ha
      simp only [List.head?_cons, Option.mem_def, Option.some.injEq] at ha
      subst ha
      simpa using h

/-- `dropWhile` removes only leading elements: when its result is
non-empty, the last element is that of the input. -/
theorem dropWhile_getLast? {α : Type} (p : α → Bool) (l : List α)
    (h : l.dropWhile p ≠ []) : (l.dropWhile p).getLast? = l.getLast? := by
  induction l with
  | nil => simp [List.dropWhile] at h
  | cons b bs ih =>
    rw [List.dropWhile_cons] at h ⊢
    by_cases hp : p b = true
    · rw [if_pos hp] at h ⊢
      have hbs : bs ≠ [] := by
        intro h0
        rw [h0] at h
        simp [List.dropWhile] at h
      rw [ih h]
      cases bs with
      | nil => exact absurd rfl hbs
      | cons c cs => rw [List.getLast?_cons_cons]
    · rw [if_neg hp]

/-- A non-empty string has a non-empty character list. -/
theorem string_ne_empty_data {c : String} (h : c ≠ "") : c.data ≠ [] := by
  intro hd
  apply h
  have h2 : c = ⟨c.data⟩ := rfl
  rw [h2, hd]

/-- A non-empty result of `pyStrip` neither starts nor ends with
whitespace. -/
theorem pyStrip_ends (s : String) (h : (pyStrip s).data ≠ []) :
    (∀ a ∈ (pyStrip s).data.head?, isPySpace a = false) ∧
    (∀ a ∈ (pyStrip s).data.getLast?, isPySpace a = false) := by
  have hdata : (pyStrip s).data =
      ((s.data.dropWhile isPySpace).reverse.dropWhile isPySpace).reverse := rfl
  rw [hdata] at h ⊢
  have htne : (s.data.dropWhile isPySpace).reverse.dropWhile isPySpace ≠ [] := by
    intro h0
    rw [h0] at h
    exact h rfl
  constructor
  · rw [List.head?_reverse, dropWhile_getLast? _ _ htne, List.getLast?_reverse]
    exact dropWhile_head_false _ _
  · rw [List.getLast?_reverse]
    exact dropWhile_head_false _ _

/-- C7.  `validate_config` splits the channel string on commas, strips
surrounding whitespace from each entry, drops entries that become empty
and preserves the relative order of the remaining entries (the processed
list is a sublist of the stripped split); every kept entry is non-empty
and carries no surrounding whitespace; and validation returns the
`ValueError` exactly when every split piece strips to the empty string,
i.e. when the resulting list is empty. -/
theorem c7_channel_list_processing (s : String) :
    (∀ c ∈ process_channels s,
      c ≠ "" ∧ (∀ a ∈ c.data.head?, isPySpace a = false) ∧
        (∀ a ∈ c.data.getLast?, isPySpace a = false)) ∧
    (process_channels s).Sublist ((pySplit s ',').map pyStrip) ∧
    validate_channels s =
      (if (pySplit s ',').all (fun ch => pyStrip ch == "") then
        Except.error "No valid channels found in CHANNELS environment variable"
      else Except.ok (process_channels s)) := by
  refine ⟨?_, ?_, ?_⟩
  · intro c hc
    rw [process_channels, List.mem_map] at hc
    obtain ⟨ch, hch, rfl⟩ := hc
    rw [List.mem_filter] at hch
    have hne : pyStrip ch ≠ "" := by simpa using hch.2
    exact ⟨hne, pyStrip_ends ch (string_ne_empty_data hne)⟩
  · exact List.Sublist.map pyStrip (List.filter_sublist _)
  · have hiff : process_channels s = [] ↔
        ((pySplit s ',').all fun ch => pyStrip ch == "") = true := by
      rw [process_channels, List.map_eq_nil_iff, List.filter_eq_nil_iff, List.all_eq_true]
      constructor
      · intro h ch hch
        simpa using h ch hch
      · intro h ch hch
        simpa using h ch hch
    simp only [validate_channels]
    by_cases hemp : process_channels s = []
    · rw [if_pos hemp, if_pos (hiff.mp hemp)]
    · rw [if_neg hemp, if_neg (fun hx => hemp (hiff.mpr hx))]

/-- Witness for C7: a channel string with padding, an empty piece and a
trailing comma yields the trimmed in-order entries, and an all-blank
string is rejected. -/
theorem c7_witness :
    process_channels " jobs , , design ," = ["jobs", "design"] ∧
    validate_channels " jobs , , design ," = Except.ok ["jobs", "design"] ∧
    validate_channels " ,  , " =
      Except.error "No valid channels found in CHANNELS environment variable" ∧
    "jobs" ≠ "" :=
  ⟨by rfl, by rfl, by rfl,
    ((c7_channel_list_processing " jobs , , design ,").1 "jobs" (by decide)).1⟩

/-- Scanning for the handle pattern skips any at-sign-free leading
segment of the text. -/
theorem scanUsername_append (pre l : List Char) (hpre : '@' ∉ pre) :
    scanUsername (pre ++ l) = scanUsername l := by
  induction pre with
  | nil => rfl
  | cons a as ih =>
    have ha : ¬ (a = '@') := fun h => hpre (by rw [h]; exact List.mem_cons_self '@' as)
    rw [List.cons_append, scanUsername.eq_def]
    simp only [ha, if_false]
    exact ih fun hm => hpre (List.mem_cons_of_mem a hm)

/-- C9.  The handle regular expression does not exclude email addresses:
in a text whose only at sign is that of an email address (written
`pre ++ at :: c :: rest` with no other at sign and `c` a word character —
for an email, the first character of the domain), `extract_username`
reaches that at sign and returns the maximal following word-character run,
a non-empty prefix of the email's domain, rather than no handle; thus
`extract_contact_info` reports a username and the message becomes eligible
for delivery to that name. -/
theorem c9_email_at_sign_extracted (pre rest : List Char) (c : Char)
    (hpre : '@' ∉ pre) (hrest : '@' ∉ rest) (hc : isWordChar c = true) :
    extract_username ⟨pre ++ '@' :: c :: rest⟩ =
      some ⟨(c :: rest).takeWhile isWordChar⟩ ∧
    (extract_contact_info ⟨pre ++ '@' :: c :: rest⟩).username =
      some ⟨(c :: rest).takeWhile isWordChar⟩ := by
  have hscan : scanUsername (pre ++ '@' :: c :: rest) =
      some ((c :: rest).takeWhile isWordChar) := by
    rw [scanUsername_append pre _ hpre]
    rw [scanUsername.eq_def]
    simp [hc]
  have h1 : extract_username ⟨pre ++ '@' :: c :: rest⟩ =
      some ⟨(c :: rest).takeWhile isWordChar⟩ := by
    show (scanUsername (pre ++ '@' :: c :: rest)).map _ = _
    rw [hscan]
    rfl
  exact ⟨h1, h1⟩

/-- Witness for C9: in a text whose only at sign belongs to the email
address `john.doe@gmail.com`, the extracted handle is `gmail` — a prefix
of the email's domain — and the contact record carries it. -/
theorem c9_witness :
    extract_username ⟨("Job UI role, email me: john.doe".data) ++ '@' :: 'g' :: ("mail.com today".data)⟩ =
      some ⟨('g' :: ("mail.com today".data)).takeWhile isWordChar⟩ ∧
    (extract_contact_info ⟨("Job UI role, email me: john.doe".data) ++ '@' :: 'g' :: ("mail.com today".data)⟩).username =
      some ⟨('g' :: ("mail.com today".data)).takeWhile isWordChar⟩ ∧
    (⟨('g' :: ("mail.com today".data)).takeWhile isWordChar⟩ : String) = "gmail" :=
  ⟨(c9_email_at_sign_extracted _ _ _ (by decide) (by decide) (by decide)).1,
   (c9_email_at_sign_extracted _ _ _ (by decide) (by decide) (by decide)).2,
   by decide⟩

end AlertBot
